import Mathlib

/-!
Verification of the Image-Vault storage and upload layer.

The TypeScript sources are embedded shallowly:
* JavaScript strings are Lean `String`s; `String.prototype.includes` and
  `String.prototype.startsWith` are modelled over character lists.
* A JavaScript `Map<string, V>` is an association list `List (String × V)`
  whose keys are kept unique by construction (`mapSet` replaces in place,
  `mapDelete` removes the key).
* `Date.now()` and the random id/filename suffixes are passed in as
  explicit parameters: the functions are deterministic in those oracles.
* `null`/`undefined` field values are `Option`; a *possibly absent key* of
  a partial-update object is a further `Option` layer (outer `none` = the
  key itself is missing, which JavaScript object spread treats differently
  from a key that is present with value `undefined`).
-/

namespace ImageVault

/-- `listStartsWith s p` models `s.startsWith(p)` on character lists. -/
def listStartsWith : List Char → List Char → Bool
  | _, [] => true
  | [], _ :: _ => false
  | a :: as, b :: bs => a == b && listStartsWith as bs

/-- `hasSub hay pat` is true when `pat` occurs contiguously inside `hay`;
it models `hay.includes(pat)` on character lists. -/
def hasSub : List Char → List Char → Bool
  | [], pat => pat.isEmpty
  | h :: t, pat => listStartsWith (h :: t) pat || hasSub t pat

/-- JavaScript `s.includes(pat)`. -/
def strIncludes (s pat : String) : Bool :=
  hasSub s.toList pat.toList

/-- JavaScript `s.startsWith(pat)`. -/
def strStartsWith (s pat : String) : Bool :=
  listStartsWith s.toList pat.toList

/-- ASCII lowercasing of one character, as `toLowerCase` does on the
ASCII range relevant to filenames. -/
def charToLower (c : Char) : Char :=
  if c.toNat ≥ 65 && c.toNat ≤ 90 then Char.ofNat (c.toNat + 32) else c

/-- JavaScript `s.toLowerCase()` (ASCII range). -/
def strToLower (s : String) : String :=
  String.mk (s.toList.map charToLower)

/-- `determineCategory` from `src/server/routes.ts`: lowercase the original
filename and return the first matching tag in a fixed priority order. -/
def determineCategory (filename : String) : String :=
  let name := strToLower filename
  if strIncludes name "portrait" || strIncludes name "face" || strIncludes name "person" then
    "portrait"
  else if strIncludes name "abstract" || strIncludes name "art" then
    "abstract"
  else if strIncludes name "nature" || strIncludes name "flower" ||
      strIncludes name "tree" || strIncludes name "animal" then
    "nature"
  else
    "landscape"

/-- The category derivation as the spec words it: case-insensitive substring
match of the filename against keyword groups in a fixed priority order,
defaulting to "landscape". The keywords are lowercase already, so the
case-insensitive match lowercases the filename. -/
def categorizeSpec (filename : String) : String :=
  if ["portrait", "face", "person"].any (fun kw => strIncludes (strToLower filename) kw) then
    "portrait"
  else if ["abstract", "art"].any (fun kw => strIncludes (strToLower filename) kw) then
    "abstract"
  else if ["nature", "flower", "tree", "animal"].any
      (fun kw => strIncludes (strToLower filename) kw) then
    "nature"
  else
    "landscape"

/-! ### Data model (`src/shared/schema.ts`)

The `images` table: `category` and `uploadedAt` are nullable columns
(`text`/`timestamp` without `notNull`), `userId` is nullable; timestamps
are modelled as `Nat` milliseconds. -/

/-- An `Image` row (`Image = typeof images.$inferSelect`). -/
structure Image where
  id : String
  filename : String
  originalName : String
  mimeType : String
  size : Nat
  category : Option String
  uploadedAt : Option Nat
  userId : Option String
deriving DecidableEq, Repr

/-- `InsertImage`: the insert schema omits `id` and `uploadedAt`. -/
structure InsertImage where
  filename : String
  originalName : String
  mimeType : String
  size : Nat
  category : Option String
  userId : Option String
deriving DecidableEq, Repr

/-! ### JavaScript `Map<string, V>` as an association list

`Map` keys are unique; `mapSet` replaces the value at an existing key in
place and otherwise appends (insertion order), `mapDelete` removes the
key, `mapValues` lists values in insertion order. -/

/-- `m.get(k)` (first — and under the `Map` invariant only — entry). -/
def mapGet (m : List (String × α)) (k : String) : Option α :=
  (m.find? (fun p => p.1 == k)).map (fun p => p.2)

/-- `m.has(k)`. -/
def mapHas (m : List (String × α)) (k : String) : Bool :=
  m.any (fun p => p.1 == k)

/-- `m.set(k, v)`. -/
def mapSet (m : List (String × α)) (k : String) (v : α) : List (String × α) :=
  if mapHas m k then m.map (fun p => if p.1 == k then (k, v) else p)
  else m ++ [(k, v)]

/-- `m.delete(k)` (the removal part; `delete`'s boolean result is
`mapHas m k`). -/
def mapDelete (m : List (String × α)) (k : String) : List (String × α) :=
  m.filter (fun p => p.1 != k)

/-- `Array.from(m.values())`. -/
def mapValues (m : List (String × α)) : List α :=
  m.map (fun p => p.2)

/-! ### `MemoryStorage` (`src/server/storage.ts`)

The store is a `Map<string, Image>`; `Date.now()` and the random id
suffix of `createImage` are explicit parameters. -/

/-- The image store: the private `images: Map<string, Image>`. -/
abbrev ImageStore := List (String × Image)

/-- JavaScript `x || d` on a nullable string: `undefined`, `null` and the
empty string are falsy and yield the default. -/
def jsOrString (v : Option String) (d : String) : String :=
  match v with
  | some s => if s = "" then d else s
  | none => d

/-- JavaScript `x || null` on a nullable string. -/
def jsOrNull (v : Option String) : Option String :=
  match v with
  | some s => if s = "" then none else some s
  | none => none

/-- The id generated by `createImage`:
`` `img_${Date.now()}_${Math.random().toString(36).substr(2, 9)}` ``. -/
def genImageId (now : Nat) (suffix : String) : String :=
  "img_" ++ toString now ++ "_" ++ suffix

/-- `MemoryStorage.createImage` from `src/server/storage.ts`: build the
`Image` with the generated id, `category: insertImage.category || "landscape"`,
`userId: insertImage.userId || null`, `uploadedAt: new Date()`, then
`this.images.set(id, image)` and return the image. -/
def createImage (store : ImageStore) (ins : InsertImage) (now : Nat) (suffix : String) :
    Image × ImageStore :=
  let id := genImageId now suffix
  let image : Image :=
    { id := id
      filename := ins.filename
      originalName := ins.originalName
      mimeType := ins.mimeType
      size := ins.size
      category := some (jsOrString ins.category "landscape")
      userId := jsOrNull ins.userId
      uploadedAt := some now }
  (image, mapSet store id image)

/-- `MemoryStorage.getImage`. -/
def getImage (store : ImageStore) (id : String) : Option Image :=
  mapGet store id

/-- `MemoryStorage.deleteImage`: `this.images.delete(id)` returns whether
the key was present and removes it. -/
def deleteImage (store : ImageStore) (id : String) : Bool × ImageStore :=
  (mapHas store id, mapDelete store id)

/-- The sort key of `getImages`: `new Date(x.uploadedAt || 0).getTime()`
(a null timestamp counts as 0). -/
def uploadKey (img : Image) : Nat :=
  img.uploadedAt.getD 0

/-- `MemoryStorage.getImages`: all values of the map, sorted by the
comparator `(a, b) => key(b) - key(a)`, i.e. descending upload time. -/
def getImages (store : ImageStore) : List Image :=
  (mapValues store).mergeSort (fun a b => decide (uploadKey b ≤ uploadKey a))

/-- `MemoryStorage.createImage` from the `part_012` storage variant: the
only differences to `createImage` are `category: insertImage.category ?? null`
and `userId: insertImage.userId ?? null` (nullish coalescing, so an absent
category stays `null` instead of defaulting to "landscape"). -/
def createImage12 (store : ImageStore) (ins : InsertImage) (now : Nat) (suffix : String) :
    Image × ImageStore :=
  let id := genImageId now suffix
  let image : Image :=
    { id := id
      filename := ins.filename
      originalName := ins.originalName
      mimeType := ins.mimeType
      size := ins.size
      category := ins.category
      userId := ins.userId
      uploadedAt := some now }
  (image, mapSet store id image)

/-! ### Users (`part_000` schema, `part_012` storage, `src/server/routes.ts`)

The `email` column is not-null in the database, but the in-memory variant
can come to store `undefined` in any field through object spread, so every
mutable field is an option. -/

/-- A `User` row. -/
structure User where
  id : String
  email : Option String
  fullName : Option String
  avatarUrl : Option String
  createdAt : Nat
  updatedAt : Nat
deriving DecidableEq, Repr

/-- The user store: the private `users: Map<string, User>`. -/
abbrev UserStore := List (String × User)

/-- A `Partial<InsertUser>` update object. The outer option is key
presence: JavaScript object spread copies a key that is present with
value `undefined`, but not an absent key; the inner option is the value
(`none` = `undefined`/`null`). -/
structure PartialInsertUser where
  email : Option (Option String)
  fullName : Option (Option String)
  avatarUrl : Option (Option String)
deriving DecidableEq, Repr

/-- `MemoryStorage.updateUser` from `part_012`: `undefined` when the id is
absent, else store and return
`{ ...existingUser, ...updateData, updatedAt: new Date() }` —
a key that is present in `updateData` overwrites the existing field even
when its value is `undefined`. -/
def updateUser (store : UserStore) (id : String) (upd : PartialInsertUser) (now : Nat) :
    Option User × UserStore :=
  match mapGet store id with
  | none => (none, store)
  | some u =>
    let updated : User :=
      { id := u.id
        email := upd.email.getD u.email
        fullName := upd.fullName.getD u.fullName
        avatarUrl := upd.avatarUrl.getD u.avatarUrl
        createdAt := u.createdAt
        updatedAt := now }
    (some updated, mapSet store id updated)

/-- The JSON body of `PUT /api/users/:id`; a field is `none` when the key
is omitted from the body (destructuring then yields `undefined`). -/
structure UpdateUserBody where
  email : Option String
  fullName : Option String
  avatarUrl : Option String
deriving DecidableEq, Repr

/-- The storage call made by the `PUT /api/users/:id` handler: it always
passes `{ email, fullName, avatarUrl }`, an object in which all three
keys are present with the (possibly `undefined`) body values. -/
def routeUpdateUser (store : UserStore) (id : String) (body : UpdateUserBody) (now : Nat) :
    Option User × UserStore :=
  updateUser store id
    { email := some body.email
      fullName := some body.fullName
      avatarUrl := some body.avatarUrl }
    now

/-! ### `POST /api/images/upload` (`src/server/routes.ts`)

One request carries up to ten file parts. The handler loops over the
files in order; for each file it uploads the bytes to the object store
(an external call whose outcome is the oracle field `uploadOk`), throws
on upload failure — which the surrounding `try/catch` turns into a
500 response with no result list — and otherwise persists the metadata
via `createImage` and pushes the created record. -/

/-- One part of the multipart request. `uploadOk`, `idSuffix` and
`publicUrl` are oracles for, respectively, the outcome of the external
`supabase.storage.upload` call, the random suffix `createImage` draws for
this file, and the public URL the object store resolves. -/
structure FilePart where
  originalname : String
  mimetype : String
  size : Nat
  uploadOk : Bool
  idSuffix : String
  publicUrl : String
deriving DecidableEq, Repr

/-- The `imageData` record the route builds for one accepted file:
the stored filename is the public URL, the category is derived from the
original filename, the owner is the optional `x-user-id` header. -/
def mkInsert (f : FilePart) (uid : Option String) : InsertImage :=
  { filename := f.publicUrl
    originalName := f.originalname
    mimeType := f.mimetype
    size := f.size
    category := some (determineCategory f.originalname)
    userId := uid }

/-- The image record `createImage` returns for one file (it does not
depend on the store contents). -/
def uploadedImage (now : Nat) (uid : Option String) (f : FilePart) : Image :=
  (createImage [] (mkInsert f uid) now f.idSuffix).fst

/-- The per-file loop of the upload handler. The result is the final
store paired with `some` created-records list on success, or `none` when
an upload failure threw out of the loop (the route then answers 500). -/
def uploadBatch (now : Nat) (uid : Option String) :
    List FilePart → ImageStore → ImageStore × Option (List Image)
  | [], store => (store, some [])
  | f :: rest, store =>
    if f.uploadOk then
      let r := createImage store (mkInsert f uid) now f.idSuffix
      let rec2 := uploadBatch now uid rest r.snd
      (rec2.fst, rec2.snd.map (fun imgs => r.fst :: imgs))
    else (store, none)

/-- The store entries the loop appends for a list of files. -/
def uploadRecords (now : Nat) (uid : Option String) (files : List FilePart) :
    List (String × Image) :=
  files.map (fun f => (genImageId now f.idSuffix, uploadedImage now uid f))

/-- The generated ids of `files` collide neither with each other nor with
the keys already in `store`. -/
def idsFresh (now : Nat) (files : List FilePart) (store : ImageStore) : Prop :=
  (files.map (fun f => genImageId now f.idSuffix)).Nodup ∧
  ∀ f ∈ files, mapHas store (genImageId now f.idSuffix) = false

/-- The multer `limits.fileSize` of the gallery upload:
`10 * 1024 * 1024` bytes. -/
def fileSizeLimit : Nat := 10 * 1024 * 1024

/-- The multer `fileFilter`: accept exactly the declared MIME types that
start with `image/`. -/
def fileFilterOk (mimetype : String) : Bool :=
  strStartsWith mimetype "image/"

/-- A file part passes multer when its MIME type passes the file filter
and its size does not exceed the limit (busboy accepts exactly
`fileSizeLimit` bytes and errors beyond it). -/
def multerAccepts (f : FilePart) : Bool :=
  fileFilterOk f.mimetype && decide (f.size ≤ fileSizeLimit)

/-- The whole request: multer validates every file before the route
handler runs; any rejected file aborts the request with a validation
error, before any persistence attempt, leaving the store unchanged. -/
def processUploadRequest (now : Nat) (uid : Option String) (files : List FilePart)
    (store : ImageStore) : ImageStore × Option (List Image) :=
  if files.all multerAccepts then uploadBatch now uid files store
  else (store, none)

/-! ### Client gallery filtering (`src/client/src/components/image-gallery.tsx`) -/

/-- `matchesCategory`: `selectedCategory === "All" ||
image.category?.toLowerCase() === selectedCategory.toLowerCase()` —
a null category matches no specific filter. -/
def matchesCategory (sel : String) (img : Image) : Bool :=
  sel == "All" ||
    (match img.category with
     | some c => strToLower c == strToLower sel
     | none => false)

/-- `matchesSearch`: `!searchQuery ||
image.originalName.toLowerCase().includes(q) ||
image.category?.toLowerCase().includes(q)` — the optional chain on a null
category is `undefined`, hence falsy. -/
def matchesSearch (q : String) (img : Image) : Bool :=
  q == "" ||
    strIncludes (strToLower img.originalName) (strToLower q) ||
    (match img.category with
     | some c => strIncludes (strToLower c) (strToLower q)
     | none => false)

/-- `filteredImages`: keep the images matching both the category filter
and the search query. -/
def filteredImages (images : List Image) (sel q : String) : List Image :=
  images.filter (fun img => matchesCategory sel img && matchesSearch q img)

/-! ### Concrete sample data used by counterexamples and witnesses -/

/-- A sample insert payload with absent `category` and `userId`. -/
def sampleInsert : InsertImage :=
  { filename := "https://cdn.example/f.png"
    originalName := "f.png"
    mimeType := "image/png"
    size := 4
    category := none
    userId := none }

/-- A sample stored image whose id equals the id `createImage` generates
for `now = 5`, `suffix = "abc"`. -/
def collidingImage : Image :=
  { id := genImageId 5 "abc"
    filename := "g"
    originalName := "g.png"
    mimeType := "image/png"
    size := 1
    category := some "landscape"
    userId := none
    uploadedAt := some 3 }

/-- A sample stored user with a full name. -/
def aliceUser : User :=
  { id := "u1"
    email := some "alice@example.com"
    fullName := some "Alice A"
    avatarUrl := none
    createdAt := 1
    updatedAt := 1 }

/-- A gallery image categorized "landscape". -/
def hillImage : Image :=
  { id := "i1"
    filename := "u1.png"
    originalName := "green_hills.png"
    mimeType := "image/png"
    size := 10
    category := some "landscape"
    userId := none
    uploadedAt := some 1 }

/-- A gallery image categorized "portrait"; only its filename contains
"bob". -/
def bobPortrait : Image :=
  { id := "i2"
    filename := "u2.jpg"
    originalName := "bob_portrait.jpg"
    mimeType := "image/jpeg"
    size := 20
    category := some "portrait"
    userId := none
    uploadedAt := some 2 }

/-- A gallery image categorized "nature". -/
def oakImage : Image :=
  { id := "i3"
    filename := "u3.png"
    originalName := "old_oak.png"
    mimeType := "image/png"
    size := 30
    category := some "nature"
    userId := none
    uploadedAt := some 3 }

/-- A small file part that passes the multer checks and uploads fine. -/
def okFile : FilePart :=
  { originalname := "green_hills.png"
    mimetype := "image/png"
    size := 4
    uploadOk := true
    idSuffix := "s1"
    publicUrl := "https://cdn.example/1.png" }

/-- A file part whose external upload fails. -/
def failFile : FilePart :=
  { originalname := "oops.png"
    mimetype := "image/png"
    size := 4
    uploadOk := false
    idSuffix := "s2"
    publicUrl := "https://cdn.example/2.png" }

/-- A file part with a non-image MIME type. -/
def textFile : FilePart :=
  { originalname := "notes.txt"
    mimetype := "text/plain"
    size := 4
    uploadOk := true
    idSuffix := "s3"
    publicUrl := "https://cdn.example/3.txt" }

/-- A file part of exactly the size limit. -/
def maxSizeFile : FilePart :=
  { originalname := "big.png"
    mimetype := "image/png"
    size := 10 * 1024 * 1024
    uploadOk := true
    idSuffix := "s4"
    publicUrl := "https://cdn.example/4.png" }

/-- A file part one byte over the size limit. -/
def oversizeFile : FilePart :=
  { originalname := "toobig.png"
    mimetype := "image/png"
    size := 10 * 1024 * 1024 + 1
    uploadOk := true
    idSuffix := "s5"
    publicUrl := "https://cdn.example/5.png" }

end ImageVault

namespace ImageVault

/-! ### Map lemmas -/

theorem mapGet_eq_none_iff (m : List (String × α)) (k : String) :
    mapGet m k = none ↔ mapHas m k = false := by
  induction m with
  | nil => simp [mapGet, mapHas]
  | cons p t ih =>
    cases h : (p.1 == k) with
    | true => simp [mapGet, mapHas, List.find?_cons, h]
    | false => simpa [mapGet, mapHas, List.find?_cons, h] using ih

theorem mapGet_mapDelete (m : List (String × α)) (k : String) :
    mapGet (mapDelete m k) k = none := by
  induction m with
  | nil => rfl
  | cons p t ih =>
    cases h : (p.1 == k) with
    | true =>
      have hd : mapDelete (p :: t) k = mapDelete t k := by
        simp [mapDelete, List.filter_cons, bne, h]
      rw [hd]; exact ih
    | false => simpa [mapDelete, mapGet, List.filter_cons, List.find?_cons, bne, h] using ih

theorem mapHas_mapDelete (m : List (String × α)) (k : String) :
    mapHas (mapDelete m k) k = false := by
  induction m with
  | nil => rfl
  | cons p t ih =>
    cases h : (p.1 == k) with
    | true =>
      have hd : mapDelete (p :: t) k = mapDelete t k := by
        simp [mapDelete, List.filter_cons, bne, h]
      rw [hd]; exact ih
    | false => simpa [mapDelete, mapHas, List.filter_cons, bne, h] using ih

theorem mapDelete_of_not_has (m : List (String × α)) (k : String)
    (h : mapHas m k = false) : mapDelete m k = m := by
  induction m with
  | nil => rfl
  | cons p t ih =>
    cases hp : (p.1 == k) with
    | true => simp [mapHas, hp] at h
    | false =>
      have ht : mapHas t k = false := by simpa [mapHas, hp] using h
      simp [mapDelete, List.filter_cons, bne, hp] at *
      exact ih ht

theorem mapSet_of_not_has (m : List (String × α)) (k : String) (v : α)
    (h : mapHas m k = false) : mapSet m k v = m ++ [(k, v)] := by
  simp [mapSet, h]

theorem mapGet_append_fresh (m : List (String × α)) (k : String) (v : α)
    (h : mapHas m k = false) : mapGet (m ++ [(k, v)]) k = some v := by
  induction m with
  | nil => simp [mapGet, List.find?_cons]
  | cons p t ih =>
    cases hp : (p.1 == k) with
    | true => simp [mapHas, hp] at h
    | false =>
      have ht : mapHas t k = false := by simpa [mapHas, hp] using h
      simpa [mapGet, List.find?_cons, hp] using ih ht

/-! ### Upload-loop lemmas -/

theorem uploadBatch_ok (now : Nat) (uid : Option String) (files : List FilePart) :
    ∀ store : ImageStore, files.all (fun f => f.uploadOk) = true →
      (uploadBatch now uid files store).snd = some (files.map (uploadedImage now uid)) := by
  induction files with
  | nil => intro store _; rfl
  | cons f rest ih =>
    intro store h
    rw [List.all_cons, Bool.and_eq_true] at h
    simp only [uploadBatch, h.1, if_true, List.map_cons]
    rw [ih _ h.2]
    rfl

theorem uploadBatch_fail (now : Nat) (uid : Option String) (files : List FilePart) :
    ∀ store : ImageStore, files.all (fun f => f.uploadOk) = false →
      (uploadBatch now uid files store).snd = none ∧
      (uploadBatch now uid files store).fst =
        (uploadBatch now uid (files.takeWhile (fun f => f.uploadOk)) store).fst := by
  induction files with
  | nil => intro store h; simp at h
  | cons f rest ih =>
    intro store h
    cases hf : f.uploadOk with
    | false =>
      refine ⟨by simp [uploadBatch, hf], ?_⟩
      simp [uploadBatch, hf, List.takeWhile_cons]
    | true =>
      have hr : rest.all (fun f => f.uploadOk) = false := by
        simpa [List.all_cons, hf] using h
      have hrec := ih (createImage store (mkInsert f uid) now f.idSuffix).snd hr
      refine ⟨?_, ?_⟩
      · simp [uploadBatch, hf, hrec.1]
      · simp [uploadBatch, hf, List.takeWhile_cons, hrec.2]

theorem uploadBatch_store_ok (now : Nat) (uid : Option String) (files : List FilePart) :
    ∀ store : ImageStore, files.all (fun f => f.uploadOk) = true →
      idsFresh now files store →
      (uploadBatch now uid files store).fst = store ++ uploadRecords now uid files := by
  induction files with
  | nil => intro store _ _; simp [uploadBatch, uploadRecords]
  | cons f rest ih =>
    intro store h hfr
    obtain ⟨hnd, hfresh⟩ := hfr
    rw [List.map_cons, List.nodup_cons] at hnd
    rw [List.all_cons, Bool.and_eq_true] at h
    have hset : (createImage store (mkInsert f uid) now f.idSuffix).snd =
        store ++ [(genImageId now f.idSuffix, uploadedImage now uid f)] :=
      mapSet_of_not_has _ _ _ (hfresh f (List.mem_cons_self f rest))
    have hfr2 : idsFresh now rest
        (store ++ [(genImageId now f.idSuffix, uploadedImage now uid f)]) := by
      refine ⟨hnd.2, fun g hg => ?_⟩
      have h1 : mapHas store (genImageId now g.idSuffix) = false :=
        hfresh g (List.mem_cons_of_mem f hg)
      have h2 : (genImageId now f.idSuffix == genImageId now g.idSuffix) = false := by
        refine beq_eq_false_iff_ne.mpr ?_
        intro he
        exact hnd.1 (he ▸ List.mem_map_of_mem (fun x => genImageId now x.idSuffix) hg)
      have hsplit : mapHas (store ++ [(genImageId now f.idSuffix, uploadedImage now uid f)])
          (genImageId now g.idSuffix)
          = (mapHas store (genImageId now g.idSuffix) ||
             (genImageId now f.idSuffix == genImageId now g.idSuffix)) := by
        simp [mapHas, List.any_append]
      rw [hsplit, h1, h2]
      rfl
    have hrec := ih (store ++ [(genImageId now f.idSuffix, uploadedImage now uid f)]) h.2 hfr2
    simp only [uploadBatch, h.1, if_true]
    rw [hset, hrec]
    simp [uploadRecords, List.append_assoc]

/-! ### Multer-gate lemmas -/

theorem listStartsWith_append (p t : List Char) : listStartsWith (p ++ t) p = true := by
  induction p with
  | nil =>
    cases t with
    | nil => rfl
    | cons c cs => rfl
  | cons c cs ih => simp [listStartsWith, ih]

theorem processUploadRequest_reject (now : Nat) (uid : Option String)
    (files : List FilePart) (store : ImageStore) (f : FilePart)
    (hmem : f ∈ files) (hrej : multerAccepts f = false) :
    processUploadRequest now uid files store = (store, none) := by
  have hall : files.all multerAccepts = false :=
    List.all_eq_false.mpr ⟨f, hmem, by simp [hrej]⟩
  simp [processUploadRequest, hall]

end ImageVault

namespace ImageVault

/-- C1: `determineCategory` agrees everywhere with the spec's priority-order
case-insensitive keyword matching, and evaluates as the spec's examples say:
"sunset_nature_hike.png" ↦ "nature", "formal_portrait.jpg" ↦ "portrait",
"random_file.png" ↦ "landscape". -/
theorem determineCategory_spec :
    (∀ s : String, determineCategory s = categorizeSpec s) ∧
    determineCategory "sunset_nature_hike.png" = "nature" ∧
    determineCategory "formal_portrait.jpg" = "portrait" ∧
    determineCategory "random_file.png" = "landscape" := by
  refine ⟨fun s => ?_, by decide, by decide, by decide⟩
  simp [determineCategory, categorizeSpec, List.any, or_assoc]

/-- C2: `getImages` returns exactly the stored records — a permutation of
the map's values, so nothing is filtered out or paginated away — and the
result is pairwise (hence adjacent-pairwise) non-increasing in the
comparator's upload key (`uploadedAt`, a null timestamp counting as 0). -/
theorem getImages_spec (store : ImageStore) :
    (getImages store).Perm (mapValues store) ∧
    (getImages store).Pairwise (fun a b => uploadKey b ≤ uploadKey a) := by
  constructor
  · exact List.mergeSort_perm (mapValues store)
      (fun a b => decide (uploadKey b ≤ uploadKey a))
  · have hs :
        List.Pairwise (fun a b => decide (uploadKey b ≤ uploadKey a) = true)
          ((mapValues store).mergeSort (fun a b => decide (uploadKey b ≤ uploadKey a))) :=
      @List.sorted_mergeSort Image (fun a b => decide (uploadKey b ≤ uploadKey a))
        (fun a b c h1 h2 => decide_eq_true
          (le_trans (of_decide_eq_true h2) (of_decide_eq_true h1)))
        (fun a b => by
          rcases le_total (uploadKey b) (uploadKey a) with h | h <;> simp [h])
        (mapValues store)
    exact List.Pairwise.imp (fun h => of_decide_eq_true h) hs

/-- C3 counterexample: the claim fails as stated. (1) In the `part_012`
`MemoryStorage` variant, an absent input category is persisted as null,
not "landscape". (2) `createImage` does not guarantee a fresh id: when the
generated id already keys a record, the new image's id equals an id
already present in the store. -/
theorem createImage_claim_counterexample :
    (createImage12 [] sampleInsert 5 "abc").fst.category ≠ some "landscape" ∧
    mapHas [(genImageId 5 "abc", collidingImage)]
      (createImage [(genImageId 5 "abc", collidingImage)] sampleInsert 5 "abc").fst.id
      = true := by
  constructor
  · decide
  · decide

/-- C3 (amended): for the `src/server/storage.ts` `MemoryStorage`, whenever
the generated timestamp-random id does not collide with an existing key
(the code does not check this), `createImage` returns an image carrying
that id — absent from the prior store — stamps `uploadedAt` to the current
time, defaults an absent category to "landscape" and an absent userId to
null, and the store gains exactly that record under the new id, the
returned image being the persisted one. -/
theorem createImage_spec (store : ImageStore) (ins : InsertImage) (now : Nat)
    (suffix : String) (hfresh : mapHas store (genImageId now suffix) = false) :
    (createImage store ins now suffix).fst.id = genImageId now suffix ∧
    getImage store (createImage store ins now suffix).fst.id = none ∧
    (createImage store ins now suffix).fst.uploadedAt = some now ∧
    (ins.category = none → (createImage store ins now suffix).fst.category = some "landscape") ∧
    (ins.userId = none → (createImage store ins now suffix).fst.userId = none) ∧
    (createImage store ins now suffix).snd =
      store ++ [(genImageId now suffix, (createImage store ins now suffix).fst)] ∧
    getImage (createImage store ins now suffix).snd (genImageId now suffix) =
      some (createImage store ins now suffix).fst := by
  refine ⟨rfl, ?_, rfl, ?_, ?_, ?_, ?_⟩
  · exact (mapGet_eq_none_iff store _).mpr hfresh
  · intro h; simp [createImage, jsOrString, h]
  · intro h; simp [createImage, jsOrNull, h]
  · simp [createImage, mapSet_of_not_has _ _ _ hfresh]
  · simp [createImage, getImage, mapSet_of_not_has _ _ _ hfresh,
      mapGet_append_fresh _ _ _ hfresh]

/-- C3 witness: the amended theorem applied at the empty store. -/
theorem createImage_spec_witness :
    mapHas ([] : ImageStore) (genImageId 5 "abc") = false ∧
    (createImage [] sampleInsert 5 "abc").fst.category = some "landscape" :=
  ⟨by decide, (createImage_spec [] sampleInsert 5 "abc" (by decide)).2.2.2.1 rfl⟩

/-- C4: `deleteImage` returns true exactly when the id is present; after a
delete, `getImage` of that id is none; a second delete of the same id
returns false rather than erring; and deleting an absent id leaves the
store unchanged. -/
theorem deleteImage_spec (store : ImageStore) (id : String) :
    ((deleteImage store id).fst = true ↔ getImage store id ≠ none) ∧
    getImage (deleteImage store id).snd id = none ∧
    (deleteImage (deleteImage store id).snd id).fst = false ∧
    (getImage store id = none → (deleteImage store id).snd = store) := by
  refine ⟨?_, ?_, ?_, ?_⟩
  · show mapHas store id = true ↔ getImage store id ≠ none
    constructor
    · intro h hn
      rw [(mapGet_eq_none_iff store id).mp hn] at h
      exact Bool.false_ne_true h
    · intro h
      cases hb : mapHas store id with
      | true => rfl
      | false => exact absurd ((mapGet_eq_none_iff store id).mpr hb) h
  · exact mapGet_mapDelete store id
  · exact mapHas_mapDelete store id
  · intro h
    exact mapDelete_of_not_has store id ((mapGet_eq_none_iff store id).mp h)

/-- C4 witness: deleting from the empty store leaves it unchanged. -/
theorem deleteImage_spec_witness :
    getImage ([] : ImageStore) "x" = none ∧ (deleteImage ([] : ImageStore) "x").snd = [] :=
  ⟨rfl, (deleteImage_spec [] "x").2.2.2 rfl⟩

/-- C5 counterexample: a `PUT /api/users/:id` body that provides `email`
but omits `fullName` does not keep the previous full name — the stored
value becomes `undefined`, because the route always passes all three keys
and object spread overwrites with `undefined`. -/
theorem updateUser_claim_counterexample :
    mapGet [("u1", aliceUser)] "u1" = some aliceUser ∧
    aliceUser.fullName = some "Alice A" ∧
    (routeUpdateUser [("u1", aliceUser)] "u1"
        { email := some "new@example.com", fullName := none, avatarUrl := none } 2).fst.map
      User.fullName = some none := by
  refine ⟨by decide, by decide, by decide⟩

/-- C5 (amended): at the storage layer, `updateUser` overwrites exactly the
fields whose keys are present in the partial update, keeps every other
field, refreshes `updatedAt`, and returns the not-found sentinel with an
unchanged store for an absent id; but a `PUT /api/users/:id` request always
supplies all three keys, so a body-omitted field is overwritten with
`undefined` rather than kept. -/
theorem updateUser_spec (store : UserStore) (id : String) (upd : PartialInsertUser)
    (body : UpdateUserBody) (now : Nat) :
    (mapGet store id = none → updateUser store id upd now = (none, store)) ∧
    (∀ u, mapGet store id = some u →
      (updateUser store id upd now).fst =
        some { id := u.id
               email := upd.email.getD u.email
               fullName := upd.fullName.getD u.fullName
               avatarUrl := upd.avatarUrl.getD u.avatarUrl
               createdAt := u.createdAt
               updatedAt := now } ∧
      (updateUser store id upd now).snd =
        mapSet store id
          { id := u.id
            email := upd.email.getD u.email
            fullName := upd.fullName.getD u.fullName
            avatarUrl := upd.avatarUrl.getD u.avatarUrl
            createdAt := u.createdAt
            updatedAt := now }) ∧
    (∀ u, mapGet store id = some u →
      (routeUpdateUser store id body now).fst =
        some { id := u.id
               email := body.email
               fullName := body.fullName
               avatarUrl := body.avatarUrl
               createdAt := u.createdAt
               updatedAt := now }) := by
  refine ⟨fun h => ?_, fun u h => ?_, fun u h => ?_⟩
  · simp [updateUser, h]
  · exact ⟨by simp [updateUser, h], by simp [updateUser, h]⟩
  · simp [routeUpdateUser, updateUser, h]

/-- C5 witness: the amended theorem at a one-user store, for both an
update that keeps an absent-key field and the route call that clobbers an
omitted body field. -/
theorem updateUser_spec_witness :
    mapGet [("u1", aliceUser)] "u1" = some aliceUser ∧
    (updateUser [("u1", aliceUser)] "u1"
        { email := some (some "new@example.com"), fullName := none, avatarUrl := none } 2).fst =
      some { id := "u1"
             email := some "new@example.com"
             fullName := some "Alice A"
             avatarUrl := none
             createdAt := 1
             updatedAt := 2 } ∧
    (routeUpdateUser [("u1", aliceUser)] "u1"
        { email := some "new@example.com", fullName := none, avatarUrl := none } 2).fst =
      some { id := "u1"
             email := some "new@example.com"
             fullName := none
             avatarUrl := none
             createdAt := 1
             updatedAt := 2 } := by
  refine ⟨by decide, ?_, ?_⟩
  · exact ((updateUser_spec [("u1", aliceUser)] "u1"
      { email := some (some "new@example.com"), fullName := none, avatarUrl := none }
      { email := some "new@example.com", fullName := none, avatarUrl := none } 2).2.1
        aliceUser (by decide)).1
  · exact (updateUser_spec [("u1", aliceUser)] "u1"
      { email := some (some "new@example.com"), fullName := none, avatarUrl := none }
      { email := some "new@example.com", fullName := none, avatarUrl := none } 2).2.2
        aliceUser (by decide)

/-- C6: when every file's upload succeeds, the response carries exactly
one created record per file, in input order; when any upload fails, the
loop throws — the caller gets a 500 and no record list — and the files
after the first failing one are never attempted: the final store is the
one produced by processing only the files strictly before the first
failure. -/
theorem uploadBatch_spec (now : Nat) (uid : Option String) (files : List FilePart)
    (store : ImageStore) :
    (files.all (fun f => f.uploadOk) = true →
      (uploadBatch now uid files store).snd = some (files.map (uploadedImage now uid))) ∧
    (files.all (fun f => f.uploadOk) = false →
      (uploadBatch now uid files store).snd = none ∧
      (uploadBatch now uid files store).fst =
        (uploadBatch now uid (files.takeWhile (fun f => f.uploadOk)) store).fst) :=
  ⟨fun h => uploadBatch_ok now uid files store h,
   fun h => uploadBatch_fail now uid files store h⟩

/-- C6 witness: a one-file batch succeeds with exactly its record; a batch
whose second file fails returns no record list. -/
theorem uploadBatch_spec_witness :
    [okFile].all (fun f => f.uploadOk) = true ∧
    (uploadBatch 7 none [okFile] []).snd = some [uploadedImage 7 none okFile] ∧
    [okFile, failFile].all (fun f => f.uploadOk) = false ∧
    (uploadBatch 7 none [okFile, failFile] []).snd = none :=
  ⟨by decide, (uploadBatch_spec 7 none [okFile] []).1 (by decide), by decide,
    ((uploadBatch_spec 7 none [okFile, failFile] []).2 (by decide)).1⟩

/-- C10: batch upload is not atomic. When some upload fails and the
generated ids of the files before the first failure are collision-free,
the request yields no success report, yet the store retains exactly the
records created for the files before the first failure — every one of
those records is still in the store. -/
theorem uploadBatch_not_atomic (now : Nat) (uid : Option String) (files : List FilePart)
    (store : ImageStore)
    (hfail : files.all (fun f => f.uploadOk) = false)
    (hfresh : idsFresh now (files.takeWhile (fun f => f.uploadOk)) store) :
    (uploadBatch now uid files store).snd = none ∧
    (uploadBatch now uid files store).fst =
      store ++ uploadRecords now uid (files.takeWhile (fun f => f.uploadOk)) ∧
    ∀ p ∈ uploadRecords now uid (files.takeWhile (fun f => f.uploadOk)),
      p ∈ (uploadBatch now uid files store).fst := by
  have hb := uploadBatch_fail now uid files store hfail
  have htw : (files.takeWhile (fun f => f.uploadOk)).all (fun f => f.uploadOk) = true :=
    List.all_eq_true.mpr (fun x hx => List.mem_takeWhile_imp hx)
  have hst := uploadBatch_store_ok now uid (files.takeWhile (fun f => f.uploadOk))
    store htw hfresh
  refine ⟨hb.1, hb.2.trans hst, fun p hp => ?_⟩
  rw [hb.2, hst]
  exact List.mem_append.mpr (Or.inr hp)

/-- C10 witness: a batch failing on its second file keeps the first
file's record in the store while reporting no success. -/
theorem uploadBatch_not_atomic_witness :
    [okFile, failFile].all (fun f => f.uploadOk) = false ∧
    idsFresh 7 ([okFile, failFile].takeWhile (fun f => f.uploadOk)) [] ∧
    (uploadBatch 7 none [okFile, failFile] []).snd = none ∧
    (uploadBatch 7 none [okFile, failFile] []).fst =
      [] ++ uploadRecords 7 none ([okFile, failFile].takeWhile (fun f => f.uploadOk)) := by
  have hfr : idsFresh 7 ([okFile, failFile].takeWhile (fun f => f.uploadOk)) [] :=
    ⟨by decide, by decide⟩
  have h := uploadBatch_not_atomic 7 none [okFile, failFile] [] (by decide) hfr
  exact ⟨by decide, hfr, h.1, h.2.1⟩

/-- C8: a declared MIME type not starting with "image/" — "text/plain" in
particular — fails the multer file filter, and a request containing such a
file is rejected before any persistence attempt: the store is unchanged
and no record list is produced. Every MIME type of the form "image/…"
passes the filter. -/
theorem uploadMimeFilter_spec :
    fileFilterOk "text/plain" = false ∧
    (∀ r : String, fileFilterOk ("image/" ++ r) = true) ∧
    (∀ (now : Nat) (uid : Option String) (files : List FilePart) (store : ImageStore)
        (f : FilePart), f ∈ files → fileFilterOk f.mimetype = false →
      processUploadRequest now uid files store = (store, none)) := by
  refine ⟨by decide, fun r => ?_, fun now uid files store f hmem hf => ?_⟩
  · show listStartsWith ("image/" ++ r).toList ("image/").toList = true
    have hd : ("image/" ++ r).toList = ("image/").toList ++ r.toList :=
      String.data_append "image/" r
    rw [hd]
    exact listStartsWith_append _ _
  · exact processUploadRequest_reject now uid files store f hmem
      (by simp [multerAccepts, hf])

/-- C8 witness: a "text/plain" part aborts the request, leaving the store
unchanged and producing no record. -/
theorem uploadMimeFilter_spec_witness :
    textFile ∈ [textFile] ∧ fileFilterOk textFile.mimetype = false ∧
    processUploadRequest 7 none [textFile] [] = ([], none) :=
  ⟨by decide, by decide,
    uploadMimeFilter_spec.2.2 7 none [textFile] [] textFile (by decide) (by decide)⟩

/-- C9: the gallery size ceiling is exactly `10 * 1024 * 1024` bytes: a
file one byte over it fails the multer check — and any request containing
it is rejected with the store unchanged and no record created — while a
file of exactly the ceiling (with an image MIME type) passes. -/
theorem uploadSizeLimit_spec :
    fileSizeLimit = 10 * 1024 * 1024 ∧
    (∀ f : FilePart, f.size = 10 * 1024 * 1024 + 1 → multerAccepts f = false) ∧
    (∀ f : FilePart, f.size = 10 * 1024 * 1024 → fileFilterOk f.mimetype = true →
      multerAccepts f = true) ∧
    (∀ (now : Nat) (uid : Option String) (files : List FilePart) (store : ImageStore)
        (f : FilePart), f ∈ files → multerAccepts f = false →
      processUploadRequest now uid files store = (store, none)) := by
  refine ⟨rfl, fun f hs => ?_, fun f hs hm => ?_,
    fun now uid files store f hmem hf =>
      processUploadRequest_reject now uid files store f hmem hf⟩
  · simp [multerAccepts, fileSizeLimit, hs]
  · simp [multerAccepts, fileSizeLimit, hs, hm]

/-- C9 witness: the boundary cases — exactly 10 MiB passes the multer
check, 10 MiB + 1 fails and aborts the request with the store unchanged. -/
theorem uploadSizeLimit_spec_witness :
    maxSizeFile.size = 10 * 1024 * 1024 ∧
    fileFilterOk maxSizeFile.mimetype = true ∧
    multerAccepts maxSizeFile = true ∧
    oversizeFile.size = 10 * 1024 * 1024 + 1 ∧
    multerAccepts oversizeFile = false ∧
    processUploadRequest 7 none [oversizeFile] [] = ([], none) := by
  refine ⟨rfl, by decide, uploadSizeLimit_spec.2.2.1 maxSizeFile rfl (by decide),
    rfl, uploadSizeLimit_spec.2.1 oversizeFile rfl, ?_⟩
  exact uploadSizeLimit_spec.2.2.2 7 none [oversizeFile] [] oversizeFile (by decide)
    (uploadSizeLimit_spec.2.1 oversizeFile rfl)

/-- C7: an image is in the client gallery's filtered set exactly when it
is among the fetched images, the category filter is "All" or equals the
image's category case-insensitively, and the query is empty or a
case-insensitive substring of the original filename or of the category;
with filter "All" and the query "bob" matching only the portrait image's
filename, the filtered set is exactly that image. -/
theorem filteredImages_spec :
    (∀ (images : List Image) (sel q : String) (img : Image),
      img ∈ filteredImages images sel q ↔
        (img ∈ images ∧
          (sel = "All" ∨ ∃ c, img.category = some c ∧ strToLower c = strToLower sel) ∧
          (q = "" ∨ strIncludes (strToLower img.originalName) (strToLower q) = true ∨
            ∃ c, img.category = some c ∧ strIncludes (strToLower c) (strToLower q) = true))) ∧
    filteredImages [hillImage, bobPortrait, oakImage] "All" "bob" = [bobPortrait] := by
  refine ⟨fun images sel q img => ?_, by decide⟩
  rw [filteredImages, List.mem_filter]
  refine and_congr_right fun _ => ?_
  rw [Bool.and_eq_true]
  apply and_congr
  · cases hc : img.category with
    | none => simp [matchesCategory, hc]
    | some c => simp [matchesCategory, hc]
  · cases hc : img.category with
    | none => simp [matchesSearch, hc]
    | some c => simp [matchesSearch, hc, or_assoc]

end ImageVault
